import Mathlib

/-!
# Verification of the Game of Life engine (src/main.c)

Shallow embedding of the grid simulation engine of the repository:
the two cell buffers (`int ** board`, `int ** temp`), the per-row
computation `board_compute_thread`, the sequential generation advance
`board_compute`, the OpenMP generation advance `board_compute_openmp`,
the `board_reset` operation, and the command-line strategy selection
performed by `main`.

Cell buffers are modelled as total functions `Nat -> Nat -> Int`
(row, column, C `int` value); the engine only ever touches the
40-column by 30-row region, and all loops are embedded as folds over
`List.range`.  The `Uint32` accumulator used for neighbour counting is
modelled as a natural number reduced mod 2^32 at every addition,
exactly as C converts `int` to `Uint32` and wraps.
-/

namespace GameOfLife

/-- A cell buffer (`int **`), read as `g row col`.  Cells hold C `int`
values; the engine's invariant (re-established by every generation
advance) is that live cells hold 1 and dead cells hold 0. -/
abbrev Grid := Nat → Nat → Int

/-- A grid is binary when every cell holds 0 or 1. -/
def Binary (g : Grid) : Prop := ∀ a b, g a b = 0 ∨ g a b = 1

/-- Write one cell: `g[i][j] = v`. -/
def update (g : Grid) (i j : Nat) (v : Int) : Grid :=
  fun a b => if a = i ∧ b = j then v else g a b

/-- C conversion of an `int` value to `Uint32`: reduction mod 2^32. -/
def toU32 (v : Int) : Nat := (v % 4294967296).toNat

/-- One `count += board[x][y]` step of `board_compute_thread`:
the `Uint32` accumulator wraps mod 2^32. -/
def addU32 (acc : Nat) (v : Int) : Nat := (acc + toU32 v) % 4294967296

/-- The top-row block of `board_compute_thread` (src/main.c lines
174-190, executed when `height` is nonzero): top-left guarded by
`if (width)`, top-centre unguarded, top-right guarded by
`width < kMaxWidth` (= 39). -/
def topRow (board : Grid) (h w : Nat) (c : Nat) : Nat :=
  let c := if w ≠ 0 then addU32 c (board (h-1) (w-1)) else c
  let c := addU32 c (board (h-1) w)
  if w < 39 then addU32 c (board (h-1) (w+1)) else c

/-- The bottom-row block of `board_compute_thread` (src/main.c lines
204-220, executed when `height < kMaxHeight` = 29). -/
def bottomRow (board : Grid) (h w : Nat) (c : Nat) : Nat :=
  let c := if w ≠ 0 then addU32 c (board (h+1) (w-1)) else c
  let c := addU32 c (board (h+1) w)
  if w < 39 then addU32 c (board (h+1) (w+1)) else c

/-- Neighbour counting of `board_compute_thread` (src/main.c lines
166-220) for the cell at row `h`, column `w`: the 8 surrounding cells
of the `board` buffer are accumulated into the `Uint32` counter
`count`, each read guarded exactly as in the source (`if (height)`,
`width < kMaxWidth` = 39, `height < kMaxHeight` = 29, `if (width)`). -/
def neighborCount (board : Grid) (h w : Nat) : Nat :=
  let c : Nat := 0
  let c := if h ≠ 0 then topRow board h w c else c
  let c := if w ≠ 0 then addU32 c (board h (w-1)) else c
  let c := if w < 39 then addU32 c (board h (w+1)) else c
  if h < 29 then bottomRow board h w c else c

/-- The per-cell rule of `board_compute_thread` (src/main.c lines
222-236): a dead cell (0) with exactly 3 live neighbours becomes
alive; an alive cell (1) with 2 or 3 live neighbours stays alive;
every other combination yields a dead cell. -/
def transition (self : Int) (count : Nat) : Int :=
  if self = 0 ∧ count = 3 then 1
  else if self = 1 ∧ (count = 2 ∨ count = 3) then 1
  else 0

/-- The value `board_compute_thread` writes into `temp[h][w]`. -/
def cellNext (board : Grid) (h w : Nat) : Int :=
  transition (board h w) (neighborCount board h w)

/-- `board_compute_thread` (src/main.c lines 164-238): computes row `h`
of the next generation into the `temp` buffer, reading only `board`. -/
def board_compute_thread (board temp : Grid) (h : Nat) : Grid :=
  (List.range 40).foldl (fun t w => update t h w (cellNext board h w)) temp

/-- `board_compute` (src/main.c lines 245-262): sequentially computes
every row into `temp`, then copies `temp` back into `board` row-major.
Returns the final `(board, temp)` pair. -/
def board_compute (board temp : Grid) : Grid × Grid :=
  let temp2 := (List.range 30).foldl (fun t i => board_compute_thread board t i) temp
  let board2 := (List.range 30).foldl
    (fun b i => (List.range 40).foldl (fun b j => update b i j (temp2 i j)) b) board
  (board2, temp2)

/-- `board_compute_openmp` (src/main.c lines 269-291).  The
`#pragma omp parallel for` over rows distributes the 30 row
computations over worker threads; each iteration writes only its own
`temp` row and reads only the unmodified `board`, so any interleaving
is equivalent to executing the iterations in some order `rowSched`.
The copy phase runs its outer row loop sequentially and parallelises
each row's column loop, likewise modelled by an arbitrary order
`colSched i` of the columns of row `i`; the implicit barrier at the
end of each parallel region is what makes the phases sequential. -/
def board_compute_openmp (rowSched : List Nat) (colSched : Nat → List Nat)
    (board temp : Grid) : Grid × Grid :=
  let temp2 := rowSched.foldl (fun t i => board_compute_thread board t i) temp
  let board2 := (List.range 30).foldl
    (fun b i => (colSched i).foldl (fun b j => update b i j (temp2 i j)) b) board
  (board2, temp2)

/-- `board_reset` (src/main.c lines 297-309): zeroes every cell of both
buffers, row-major. -/
def board_reset (board temp : Grid) : Grid × Grid :=
  (List.range 30).foldl
    (fun bt i => (List.range 40).foldl
      (fun bt j => (update bt.1 i j 0, update bt.2 i j 0)) bt) (board, temp)

/-- The compute strategy selected by `main`. -/
inductive ComputeKind
  | sequential
  | openmp
deriving DecidableEq

/-- The draw routine selected by `main`. -/
inductive DrawKind
  | plain
  | openmpDraw
  | multithreadDraw
deriving DecidableEq

/-- Startup configuration produced by the argument handling of `main`
(src/main.c lines 637-673): compute function, draw function, and the
`useOpenGL` flag.  `args` is `argv` without the program name; `none`
means `main` returns `EXIT_FAILURE` before the simulation starts. -/
def parseArgs (args : List String) : Option (ComputeKind × DrawKind × Bool) :=
  match args with
  | [] => some (ComputeKind.sequential, DrawKind.plain, false)
  | [a] =>
    if a = "--openmp" then some (ComputeKind.openmp, DrawKind.openmpDraw, false)
    else if a = "--thread" then some (ComputeKind.sequential, DrawKind.multithreadDraw, false)
    else if a = "--opengl" then some (ComputeKind.sequential, DrawKind.plain, true)
    else none
  | _ => none

/-- Spec-side clipped neighbour sum, written from the specification:
the live-neighbour count of cell `(h, w)` sums exactly those of the 8
surrounding coordinates that lie inside the grid, each guard stating
that the corresponding coordinate exists (for `h < 30`, `w < 40`:
the row above exists iff `h ≠ 0`, the row below iff `h < 29`, the
column to the left iff `w ≠ 0`, the column to the right iff `w < 39`);
out-of-range coordinates contribute nothing. -/
def clippedNeighborSum (g : Grid) (h w : Nat) : Nat :=
  (if h ≠ 0 ∧ w ≠ 0 then (g (h-1) (w-1)).toNat else 0)
  + (if h ≠ 0 then (g (h-1) w).toNat else 0)
  + (if h ≠ 0 ∧ w < 39 then (g (h-1) (w+1)).toNat else 0)
  + (if w ≠ 0 then (g h (w-1)).toNat else 0)
  + (if w < 39 then (g h (w+1)).toNat else 0)
  + (if h < 29 ∧ w ≠ 0 then (g (h+1) (w-1)).toNat else 0)
  + (if h < 29 then (g (h+1) w).toNat else 0)
  + (if h < 29 ∧ w < 39 then (g (h+1) (w+1)).toNat else 0)

/-- The corner test grid of the specification: only (0,1), (1,0) and
(1,1) are alive, everything else (including the corner (0,0)) is dead. -/
def cornerSeed : Grid := fun h w =>
  if (h = 0 ∧ w = 1) ∨ (h = 1 ∧ w = 0) ∨ (h = 1 ∧ w = 1) then 1 else 0

/-- A 2x2 block of alive cells with upper-left corner (r, c), every
other cell dead. -/
def blockGrid (r c : Nat) : Grid := fun h w =>
  if r ≤ h ∧ h ≤ r + 1 ∧ c ≤ w ∧ w ≤ c + 1 then 1 else 0

/-- A horizontal three-cell line: row r, columns c-1, c, c+1 alive,
every other cell dead. -/
def hblinker (r c : Nat) : Grid := fun h w =>
  if h = r ∧ c - 1 ≤ w ∧ w ≤ c + 1 then 1 else 0

/-- A vertical three-cell line: column c, rows r-1, r, r+1 alive,
every other cell dead. -/
def vblinker (r c : Nat) : Grid := fun h w =>
  if r - 1 ≤ h ∧ h ≤ r + 1 ∧ w = c then 1 else 0

/-! ## Closed forms for the folds -/

theorem update_apply (g : Grid) (i j : Nat) (v : Int) (a b : Nat) :
    update g i j v a b = if a = i ∧ b = j then v else g a b := rfl

/-- A row of single-cell writes, evaluated pointwise. -/
theorem foldl_update_row (f : Nat → Int) (i : Nat) (L : List Nat) (t : Grid) (a b : Nat) :
    (L.foldl (fun t w => update t i w (f w)) t) a b
      = if a = i ∧ b ∈ L then f b else t a b := by
  induction L generalizing t with
  | nil => simp
  | cons x xs ih =>
    simp only [List.foldl_cons, ih, List.mem_cons, update]
    by_cases ha : a = i
    · by_cases hx : b = x
      · by_cases hm : b ∈ xs <;> simp [ha, hx, hm]
      · by_cases hm : b ∈ xs <;> simp [ha, hx, hm]
    · simp [ha]

/-- `board_compute_thread`, evaluated pointwise. -/
theorem board_compute_thread_apply (board t : Grid) (i a b : Nat) :
    board_compute_thread board t i a b
      = if a = i ∧ b < 40 then cellNext board a b else t a b := by
  unfold board_compute_thread
  rw [foldl_update_row]
  by_cases ha : a = i
  · subst ha; simp [List.mem_range]
  · simp [ha]

/-- A sequence of row computations, evaluated pointwise. -/
theorem foldl_rows_apply (board : Grid) (R : List Nat) (t : Grid) (a b : Nat) :
    (R.foldl (fun t i => board_compute_thread board t i) t) a b
      = if a ∈ R ∧ b < 40 then cellNext board a b else t a b := by
  induction R generalizing t with
  | nil => simp
  | cons x xs ih =>
    simp only [List.foldl_cons, ih, List.mem_cons, board_compute_thread_apply]
    by_cases hb : b < 40
    · by_cases hx : a = x
      · by_cases hm : a ∈ xs <;> simp [hx, hm, hb]
      · by_cases hm : a ∈ xs <;> simp [hx, hm, hb]
    · simp [hb]

/-- The copy phase (rows `R`, row `i` copying columns `cols i`),
evaluated pointwise. -/
theorem foldl_copy_apply (src : Grid) (R : List Nat) (cols : Nat → List Nat)
    (g : Grid) (a b : Nat) :
    (R.foldl (fun g i => (cols i).foldl (fun g j => update g i j (src i j)) g) g) a b
      = if a ∈ R ∧ b ∈ cols a then src a b else g a b := by
  induction R generalizing g with
  | nil => simp
  | cons x xs ih =>
    simp only [List.foldl_cons, ih, List.mem_cons]
    rw [foldl_update_row (f := src x)]
    by_cases hx : a = x
    · subst hx
      by_cases hm : a ∈ xs <;> by_cases hc : b ∈ cols a <;> simp [hm, hc]
    · by_cases hm : a ∈ xs <;> simp [hx, hm]

/-- The `board` buffer after `board_compute`, pointwise. -/
theorem board_compute_fst (board temp : Grid) (a b : Nat) :
    (board_compute board temp).1 a b
      = if a < 30 ∧ b < 40 then cellNext board a b else board a b := by
  unfold board_compute
  simp only [foldl_copy_apply, foldl_rows_apply, List.mem_range]
  by_cases h30 : a < 30 <;> by_cases h40 : b < 40 <;> simp [h30, h40]

/-- The `temp` buffer after `board_compute`, pointwise. -/
theorem board_compute_snd (board temp : Grid) (a b : Nat) :
    (board_compute board temp).2 a b
      = if a < 30 ∧ b < 40 then cellNext board a b else temp a b := by
  unfold board_compute
  simp only [foldl_rows_apply, List.mem_range]

/-- The `board` buffer after `board_compute_openmp`, pointwise, for any
row schedule covering `0..29` and column schedules covering `0..39`. -/
theorem board_compute_openmp_fst (rowSched : List Nat) (colSched : Nat → List Nat)
    (board temp : Grid)
    (hr : ∀ i, i ∈ rowSched ↔ i ∈ List.range 30)
    (hc : ∀ i j, j ∈ colSched i ↔ j ∈ List.range 40) (a b : Nat) :
    (board_compute_openmp rowSched colSched board temp).1 a b
      = if a < 30 ∧ b < 40 then cellNext board a b else board a b := by
  unfold board_compute_openmp
  simp only [foldl_copy_apply, foldl_rows_apply, hr, hc, List.mem_range]
  by_cases h30 : a < 30 <;> by_cases h40 : b < 40 <;> simp [h30, h40]

/-- The `temp` buffer after `board_compute_openmp`, pointwise. -/
theorem board_compute_openmp_snd (rowSched : List Nat) (colSched : Nat → List Nat)
    (board temp : Grid)
    (hr : ∀ i, i ∈ rowSched ↔ i ∈ List.range 30) (a b : Nat) :
    (board_compute_openmp rowSched colSched board temp).2 a b
      = if a < 30 ∧ b < 40 then cellNext board a b else temp a b := by
  unfold board_compute_openmp
  simp only [foldl_rows_apply, hr, List.mem_range]

/-- `board_reset`, evaluated pointwise on both buffers. -/
theorem board_reset_apply (board temp : Grid) (a b : Nat) :
    (board_reset board temp).1 a b
        = (if a < 30 ∧ b < 40 then 0 else board a b)
      ∧ (board_reset board temp).2 a b
        = (if a < 30 ∧ b < 40 then 0 else temp a b) := by
  unfold board_reset
  have key : ∀ (R : List Nat) (bt : Grid × Grid),
      (R.foldl (fun bt i => (List.range 40).foldl
        (fun bt j => (update bt.1 i j 0, update bt.2 i j 0)) bt) bt).1 a b
          = (if a ∈ R ∧ b < 40 then 0 else bt.1 a b)
      ∧ (R.foldl (fun bt i => (List.range 40).foldl
        (fun bt j => (update bt.1 i j 0, update bt.2 i j 0)) bt) bt).2 a b
          = (if a ∈ R ∧ b < 40 then 0 else bt.2 a b) := by
    intro R
    induction R with
    | nil => simp
    | cons x xs ih =>
      intro bt
      have inner : ∀ (L : List Nat) (bt : Grid × Grid),
          (L.foldl (fun bt j => (update bt.1 x j 0, update bt.2 x j 0)) bt)
            = (L.foldl (fun g j => update g x j ((fun _ => (0 : Int)) j)) bt.1,
               L.foldl (fun g j => update g x j ((fun _ => (0 : Int)) j)) bt.2) := by
        intro L
        induction L with
        | nil => intro bt; rfl
        | cons y ys ihy => intro bt; rw [List.foldl_cons, ihy]; rfl
      simp only [List.foldl_cons, ih, inner, foldl_update_row, List.mem_range,
        List.mem_cons]
      constructor
      · by_cases hx : a = x
        · by_cases hm : a ∈ xs <;> by_cases hb : b < 40 <;> simp [hx, hm, hb]
        · by_cases hm : a ∈ xs <;> simp [hx, hm]
      · by_cases hx : a = x
        · by_cases hm : a ∈ xs <;> by_cases hb : b < 40 <;> simp [hx, hm, hb]
        · by_cases hm : a ∈ xs <;> simp [hx, hm]
  have := key (List.range 30) (board, temp)
  simpa [List.mem_range] using this

/-! ## The neighbour count on binary grids -/

/-- On a binary grid the C conversion to `Uint32` keeps the cell value. -/
theorem toU32_bin (g : Grid) (hg : Binary g) (x y : Nat) :
    toU32 (g x y) = (g x y).toNat := by
  rcases hg x y with e | e <;> rw [e] <;> rfl

/-- On a binary grid every cell value, as a natural number, is at most 1. -/
theorem toNat_bin_le (g : Grid) (hg : Binary g) (x y : Nat) :
    (g x y).toNat ≤ 1 := by
  rcases hg x y with e | e <;> rw [e] <;> decide

/-- An `if` on `a < b` collapses to the else branch once `b ≤ a`. -/
theorem if_not_lt {α : Sort u_1} {a b : Nat} {x y : α} (hba : b ≤ a) :
    (if a < b then x else y) = y := if_neg (by omega)

/-- `a < b` is false once `b ≤ a` (as a rewrite rule). -/
theorem nat_lt_eq_false {a b : Nat} (hba : b ≤ a) : (a < b) = False :=
  eq_false (by omega)

/-- On a binary grid the wrapping `Uint32` accumulation of
`board_compute_thread` computes exactly the clipped plain sum of the
in-bounds neighbours. -/
theorem neighborCount_eq_clipped (g : Grid) (hg : Binary g) (h w : Nat) :
    neighborCount g h w = clippedNeighborSum g h w := by
  have t1 := toNat_bin_le g hg (h-1) (w-1)
  have t2 := toNat_bin_le g hg (h-1) w
  have t3 := toNat_bin_le g hg (h-1) (w+1)
  have t4 := toNat_bin_le g hg h (w-1)
  have t5 := toNat_bin_le g hg h (w+1)
  have t6 := toNat_bin_le g hg (h+1) (w-1)
  have t7 := toNat_bin_le g hg (h+1) w
  have t8 := toNat_bin_le g hg (h+1) (w+1)
  by_cases H1 : h ≠ 0 <;> by_cases H2 : w ≠ 0 <;> by_cases H3 : w < 39 <;>
    by_cases H4 : h < 29 <;>
    simp_all [neighborCount, topRow, bottomRow, clippedNeighborSum, addU32,
      toU32_bin g hg, if_not_lt, nat_lt_eq_false] <;>
    omega

/-- `cellNext` on a binary grid, through the clipped plain sum. -/
theorem cellNext_bin (g : Grid) (hg : Binary g) (h w : Nat) :
    cellNext g h w = transition (g h w) (clippedNeighborSum g h w) := by
  unfold cellNext
  rw [neighborCount_eq_clipped g hg]

/-- The transition always yields a binary value. -/
theorem transition_binary (s : Int) (c : Nat) :
    transition s c = 0 ∨ transition s c = 1 := by
  unfold transition
  split_ifs <;> simp

/-- The block pattern is a binary grid. -/
theorem blockGrid_binary (r c : Nat) : Binary (blockGrid r c) := by
  intro a b
  simp only [blockGrid]
  split <;> simp

/-- The horizontal blinker is a binary grid. -/
theorem hblinker_binary (r c : Nat) : Binary (hblinker r c) := by
  intro a b
  simp only [hblinker]
  split <;> simp

/-- The vertical blinker is a binary grid. -/
theorem vblinker_binary (r c : Nat) : Binary (vblinker r c) := by
  intro a b
  simp only [vblinker]
  split <;> simp

/-- Per-cell still-life fact: the transition leaves every cell of an
interior 2x2 block pattern unchanged. -/
theorem cellNext_blockGrid (r c a b : Nat)
    (hr1 : 1 ≤ r) (hr2 : r + 2 ≤ 29) (hc1 : 1 ≤ c) (hc2 : c + 2 ≤ 39)
    (ha : a < 30) (hb : b < 40) :
    cellNext (blockGrid r c) a b = blockGrid r c a b := by
  rw [cellNext_bin _ (blockGrid_binary r c)]
  by_cases hnear : r ≤ a + 2 ∧ a ≤ r + 2 ∧ c ≤ b + 2 ∧ b ≤ c + 2
  · obtain ⟨p, hp, hpa⟩ : ∃ p, p ≤ 4 ∧ a + 2 = r + p :=
      ⟨a + 2 - r, by omega, by omega⟩
    obtain ⟨q, hq, hqb⟩ : ∃ q, q ≤ 4 ∧ b + 2 = c + q :=
      ⟨b + 2 - c, by omega, by omega⟩
    interval_cases p <;> interval_cases q <;>
      simp (disch := omega) only [blockGrid, clippedNeighborSum, transition,
        if_pos, if_neg, ite_self, Int.toNat_zero, Int.toNat_one] <;>
      decide
  · have z : ∀ x y, a ≤ x + 1 → x ≤ a + 1 → b ≤ y + 1 → y ≤ b + 1 →
        blockGrid r c x y = 0 := by
      intro x y h1 h2 h3 h4
      simp only [blockGrid]
      split <;> omega
    simp (disch := omega) only [clippedNeighborSum, transition, z,
      if_pos, if_neg, ite_self, Int.toNat_zero]

/-- Per-cell blinker fact: one transition turns the horizontal
three-cell line into the vertical one. -/
theorem cellNext_hblinker (r c a b : Nat)
    (hr1 : 1 ≤ r) (hr2 : r ≤ 28) (hc1 : 2 ≤ c) (hc2 : c ≤ 37)
    (ha : a < 30) (hb : b < 40) :
    cellNext (hblinker r c) a b = vblinker r c a b := by
  rw [cellNext_bin _ (hblinker_binary r c)]
  by_cases hnear : r ≤ a + 2 ∧ a ≤ r + 2 ∧ c ≤ b + 2 ∧ b ≤ c + 2
  · obtain ⟨p, hp, hpa⟩ : ∃ p, p ≤ 4 ∧ a + 2 = r + p :=
      ⟨a + 2 - r, by omega, by omega⟩
    obtain ⟨q, hq, hqb⟩ : ∃ q, q ≤ 4 ∧ b + 2 = c + q :=
      ⟨b + 2 - c, by omega, by omega⟩
    interval_cases p <;> interval_cases q <;>
      simp (disch := omega) only [hblinker, vblinker, clippedNeighborSum,
        transition, if_pos, if_neg, ite_self, Int.toNat_zero, Int.toNat_one] <;>
      decide
  · have z : ∀ x y, a ≤ x + 1 → x ≤ a + 1 → b ≤ y + 1 → y ≤ b + 1 →
        hblinker r c x y = 0 := by
      intro x y h1 h2 h3 h4
      simp only [hblinker]
      split <;> omega
    have zr : vblinker r c a b = 0 := by
      simp only [vblinker]
      split <;> omega
    simp (disch := omega) only [clippedNeighborSum, transition, z, zr,
      if_pos, if_neg, ite_self, Int.toNat_zero]

/-- Per-cell blinker fact: one transition turns the vertical three-cell
line back into the horizontal one. -/
theorem cellNext_vblinker (r c a b : Nat)
    (hr1 : 1 ≤ r) (hr2 : r ≤ 28) (hc1 : 2 ≤ c) (hc2 : c ≤ 37)
    (ha : a < 30) (hb : b < 40) :
    cellNext (vblinker r c) a b = hblinker r c a b := by
  rw [cellNext_bin _ (vblinker_binary r c)]
  by_cases hnear : r ≤ a + 2 ∧ a ≤ r + 2 ∧ c ≤ b + 2 ∧ b ≤ c + 2
  · obtain ⟨p, hp, hpa⟩ : ∃ p, p ≤ 4 ∧ a + 2 = r + p :=
      ⟨a + 2 - r, by omega, by omega⟩
    obtain ⟨q, hq, hqb⟩ : ∃ q, q ≤ 4 ∧ b + 2 = c + q :=
      ⟨b + 2 - c, by omega, by omega⟩
    interval_cases p <;> interval_cases q <;>
      simp (disch := omega) only [hblinker, vblinker, clippedNeighborSum,
        transition, if_pos, if_neg, ite_self, Int.toNat_zero, Int.toNat_one] <;>
      decide
  · have z : ∀ x y, a ≤ x + 1 → x ≤ a + 1 → b ≤ y + 1 → y ≤ b + 1 →
        vblinker r c x y = 0 := by
      intro x y h1 h2 h3 h4
      simp only [vblinker]
      split <;> omega
    have zr : hblinker r c a b = 0 := by
      simp only [hblinker]
      split <;> omega
    simp (disch := omega) only [clippedNeighborSum, transition, z, zr,
      if_pos, if_neg, ite_self, Int.toNat_zero]

/-! ## Claims -/

/-- C1: for every grid state (both buffers, arbitrary cell values),
running the sequential strategy `board_compute` and the parallel
strategy `board_compute_openmp` on equal copies of that state produces
bit-identical resulting buffers, for every order in which the OpenMP
runtime may execute the parallel row iterations of the compute phase
and the parallel column iterations of the copy phase (any permutation
of the row indices `0..29` and of each row's column indices `0..39`). -/
theorem C1_sequential_openmp_equiv (rowSched : List Nat)
    (colSched : Nat → List Nat) (board temp : Grid)
    (hr : rowSched.Perm (List.range 30))
    (hc : ∀ i, (colSched i).Perm (List.range 40)) :
    board_compute_openmp rowSched colSched board temp
      = board_compute board temp := by
  have hr' : ∀ i, i ∈ rowSched ↔ i ∈ List.range 30 := fun i => hr.mem_iff
  have hc' : ∀ i j, j ∈ colSched i ↔ j ∈ List.range 40 := fun i j => (hc i).mem_iff
  refine Prod.ext ?_ ?_
  · funext a b
    rw [board_compute_openmp_fst rowSched colSched board temp hr' hc',
      board_compute_fst]
  · funext a b
    rw [board_compute_openmp_snd rowSched colSched board temp hr',
      board_compute_snd]

/-- Witness for C1 at a concrete state and schedule: reversed row and
column orders against the in-order sequential run. -/
theorem C1_sequential_openmp_equiv_witness :
    board_compute_openmp (List.range 30).reverse (fun _ => (List.range 40).reverse)
      (fun _ _ => 1) (fun _ _ => 0)
      = board_compute (fun _ _ => 1) (fun _ _ => 0) :=
  C1_sequential_openmp_equiv (List.range 30).reverse
    (fun _ => (List.range 40).reverse) (fun _ _ => 1) (fun _ _ => 0)
    (List.reverse_perm _) (fun _ => List.reverse_perm _)

/-- C2: the per-cell transition computes: a dead cell (0) with exactly
3 live neighbours becomes alive; an alive cell (1) with exactly 2 or 3
live neighbours stays alive; every other combination of own binary
state and live-neighbour count — including a dead cell with exactly 2
or with exactly 4 live neighbours — yields dead. -/
theorem C2_transition_rule (s : Int) (n : Nat) :
    (s = 0 ∧ n = 3 → transition s n = 1)
    ∧ (s = 1 ∧ (n = 2 ∨ n = 3) → transition s n = 1)
    ∧ ((s = 0 ∨ s = 1) → ¬(s = 0 ∧ n = 3) → ¬(s = 1 ∧ (n = 2 ∨ n = 3)) →
        transition s n = 0)
    ∧ transition 0 2 = 0 ∧ transition 0 4 = 0 := by
  unfold transition
  refine ⟨?_, ?_, ?_, by decide, by decide⟩ <;> intro hc <;> split_ifs <;> tauto

/-- Witness for C2: birth of a dead cell with exactly 3 live
neighbours, evaluated at `s = 0`, `n = 3`. -/
theorem C2_transition_rule_witness : transition 0 3 = 1 :=
  (C2_transition_rule 0 3).1 ⟨rfl, rfl⟩

/-- C3: neighbour counting sums only the up-to-8 surrounding
coordinates that lie inside the 40x30 grid (the clipped sum
`clippedNeighborSum`; coordinates outside the grid contribute
nothing); in particular, on the grid whose only live cells are (0,1),
(1,0) and (1,1), the dead corner cell (0,0) is alive after one
`board_compute`. -/
theorem C3_neighbor_clipping :
    (∀ g : Grid, Binary g → ∀ h w, h < 30 → w < 40 →
      neighborCount g h w = clippedNeighborSum g h w)
    ∧ (board_compute cornerSeed (fun _ _ => 0)).1 0 0 = 1 := by
  constructor
  · intro g hg h w _ _
    exact neighborCount_eq_clipped g hg h w
  · rw [board_compute_fst]
    rw [if_pos (by decide : (0:Nat) < 30 ∧ (0:Nat) < 40)]
    decide

/-- Witness for C3: the clipped-sum characterization applied to the
concrete corner grid at cell (0,0). -/
theorem C3_neighbor_clipping_witness :
    neighborCount cornerSeed 0 0 = clippedNeighborSum cornerSeed 0 0 :=
  C3_neighbor_clipping.1 cornerSeed
    (by
      intro a b
      simp only [cornerSeed]
      split <;> simp)
    0 0 (by decide) (by decide)

/-- C4: after a completed generation advance, every cell of the current
buffer equals the transition rule applied to that cell's prior value
and the neighbour count taken from the prior current buffer — for the
sequential strategy and, under any iteration schedule, for the
parallel strategy; no cell reflects a partially-applied generation. -/
theorem C4_full_generation (board temp : Grid) (h w : Nat)
    (hh : h < 30) (hw : w < 40) :
    (board_compute board temp).1 h w
      = transition (board h w) (neighborCount board h w)
    ∧ (∀ rowSched colSched, rowSched.Perm (List.range 30) →
        (∀ i, (colSched i).Perm (List.range 40)) →
        (board_compute_openmp rowSched colSched board temp).1 h w
          = transition (board h w) (neighborCount board h w)) := by
  constructor
  · rw [board_compute_fst]
    simp [hh, hw, cellNext]
  · intro rowSched colSched hr hc
    rw [board_compute_openmp_fst rowSched colSched board temp
      (fun i => hr.mem_iff) (fun i j => (hc i).mem_iff)]
    simp [hh, hw, cellNext]

/-- Witness for C4 at the all-dead state and cell (0, 0). -/
theorem C4_full_generation_witness :
    (board_compute (fun _ _ => 0) (fun _ _ => 0)).1 0 0
      = transition ((fun _ _ => (0 : Int)) 0 0)
          (neighborCount (fun _ _ => 0) 0 0) :=
  (C4_full_generation (fun _ _ => 0) (fun _ _ => 0) 0 0
    (by decide) (by decide)).1

/-- C5: `board_reset` sets every cell of both buffers to dead, and it
is idempotent: calling it twice yields exactly the state of calling it
once. -/
theorem C5_reset_zero_idempotent (board temp : Grid) :
    (∀ h w, h < 30 → w < 40 →
      (board_reset board temp).1 h w = 0 ∧ (board_reset board temp).2 h w = 0)
    ∧ board_reset (board_reset board temp).1 (board_reset board temp).2
        = board_reset board temp := by
  constructor
  · intro h w hh hw
    have hap := board_reset_apply board temp h w
    rw [hap.1, hap.2]
    simp [hh, hw]
  · refine Prod.ext ?_ ?_
    · funext a b
      have h1 := board_reset_apply (board_reset board temp).1 (board_reset board temp).2 a b
      have h2 := board_reset_apply board temp a b
      rw [h1.1, h2.1]
      by_cases hin : a < 30 ∧ b < 40 <;> simp [hin]
    · funext a b
      have h1 := board_reset_apply (board_reset board temp).1 (board_reset board temp).2 a b
      have h2 := board_reset_apply board temp a b
      rw [h1.2, h2.2]
      by_cases hin : a < 30 ∧ b < 40 <;> simp [hin]

/-- Witness for C5 at a concrete nonzero state and cell (0, 0). -/
theorem C5_reset_zero_idempotent_witness :
    (board_reset (fun _ _ => 7) (fun _ _ => 9)).1 0 0 = 0
    ∧ (board_reset (fun _ _ => 7) (fun _ _ => 9)).2 0 0 = 0 :=
  (C5_reset_zero_idempotent (fun _ _ => 7) (fun _ _ => 9)).1 0 0
    (by decide) (by decide)

/-- C6: a 2x2 block of four alive cells, its surrounding border dead
and the block away from the grid edge (rows r..r+1 with 1 ≤ r and
r+2 ≤ 29, columns c..c+1 with 1 ≤ c and c+2 ≤ 39), is a fixed point
of one generation advance: the resulting grid equals the input grid. -/
theorem C6_block_still_life (r c : Nat) (t : Grid)
    (hr1 : 1 ≤ r) (hr2 : r + 2 ≤ 29) (hc1 : 1 ≤ c) (hc2 : c + 2 ≤ 39) :
    (board_compute (blockGrid r c) t).1 = blockGrid r c := by
  funext a b
  rw [board_compute_fst]
  by_cases hin : a < 30 ∧ b < 40
  · rw [if_pos hin]
    exact cellNext_blockGrid r c a b hr1 hr2 hc1 hc2 hin.1 hin.2
  · rw [if_neg hin]

/-- Witness for C6: the block at (2, 3). -/
theorem C6_block_still_life_witness :
    (board_compute (blockGrid 2 3) (fun _ _ => 0)).1 = blockGrid 2 3 :=
  C6_block_still_life 2 3 (fun _ _ => 0) (by decide) (by decide) (by decide)
    (by decide)

/-- C7: a horizontal three-cell line at row r, columns c-1, c, c+1
(1 ≤ r ≤ 28, 2 ≤ c ≤ 37), becomes after one generation advance exactly
the vertical line at column c, rows r-1, r, r+1 (all other cells
dead), and a second generation advance restores the original
horizontal line. -/
theorem C7_blinker_oscillation (r c : Nat) (t t' : Grid)
    (hr1 : 1 ≤ r) (hr2 : r ≤ 28) (hc1 : 2 ≤ c) (hc2 : c ≤ 37) :
    (board_compute (hblinker r c) t).1 = vblinker r c
    ∧ (board_compute ((board_compute (hblinker r c) t).1) t').1
        = hblinker r c := by
  have step1 : (board_compute (hblinker r c) t).1 = vblinker r c := by
    funext a b
    rw [board_compute_fst]
    by_cases hin : a < 30 ∧ b < 40
    · rw [if_pos hin]
      exact cellNext_hblinker r c a b hr1 hr2 hc1 hc2 hin.1 hin.2
    · rw [if_neg hin]
      simp only [hblinker, vblinker]
      split_ifs <;> omega
  have step2 : (board_compute (vblinker r c) t').1 = hblinker r c := by
    funext a b
    rw [board_compute_fst]
    by_cases hin : a < 30 ∧ b < 40
    · rw [if_pos hin]
      exact cellNext_vblinker r c a b hr1 hr2 hc1 hc2 hin.1 hin.2
    · rw [if_neg hin]
      simp only [hblinker, vblinker]
      split_ifs <;> omega
  exact ⟨step1, by rw [step1]; exact step2⟩

/-- Witness for C7: the blinker centred at (5, 5). -/
theorem C7_blinker_oscillation_witness :
    (board_compute (hblinker 5 5) (fun _ _ => 0)).1 = vblinker 5 5
    ∧ (board_compute ((board_compute (hblinker 5 5) (fun _ _ => 0)).1)
        (fun _ _ => 0)).1 = hblinker 5 5 :=
  C7_blinker_oscillation 5 5 (fun _ _ => 0) (fun _ _ => 0) (by decide)
    (by decide) (by decide) (by decide)

/-- C8 as stated is false on the code: the startup configuration does
not fail on every argument other than the parallel one — `--thread` is
a third recognized value (it selects the sequential compute function
together with the multithreaded draw path) and the program proceeds. -/
theorem C8_counterexample :
    ("--thread" : String) ≠ "--openmp" ∧ parseArgs ["--thread"] ≠ none := by
  constructor
  · decide
  · simp [parseArgs]

/-- C8, amended: the startup configuration recognizes four forms: no
argument selects the sequential strategy and plain drawing; "--openmp"
selects the parallel strategy; "--thread" selects the sequential
compute function with the multithreaded draw path; "--opengl" selects
the sequential compute function with the OpenGL flag; any other single
argument, and any argument list with two or more entries, makes the
program exit with a failure status without starting the simulation. -/
theorem C8_parse_characterization :
    parseArgs [] = some (ComputeKind.sequential, DrawKind.plain, false)
    ∧ parseArgs ["--openmp"] = some (ComputeKind.openmp, DrawKind.openmpDraw, false)
    ∧ parseArgs ["--thread"]
        = some (ComputeKind.sequential, DrawKind.multithreadDraw, false)
    ∧ parseArgs ["--opengl"] = some (ComputeKind.sequential, DrawKind.plain, true)
    ∧ (∀ s : String, s ≠ "--openmp" → s ≠ "--thread" → s ≠ "--opengl" →
        parseArgs [s] = none)
    ∧ (∀ args : List String, 2 ≤ args.length → parseArgs args = none) := by
  refine ⟨rfl, by simp [parseArgs], by simp [parseArgs], by simp [parseArgs],
    ?_, ?_⟩
  · intro s h1 h2 h3
    simp [parseArgs, h1, h2, h3]
  · intro args hlen
    rcases args with _ | ⟨a, _ | ⟨b, rest⟩⟩
    · simp at hlen
    · simp at hlen
    · rfl

/-- Witness for C8 (amended): an unrecognized argument and a two-entry
argument list both fail. -/
theorem C8_parse_characterization_witness :
    parseArgs ["--bogus"] = none ∧ parseArgs ["a", "b"] = none :=
  ⟨C8_parse_characterization.2.2.2.2.1 "--bogus" (by decide) (by decide)
      (by decide),
    C8_parse_characterization.2.2.2.2.2 ["a", "b"] (by decide)⟩

/-- C9: after `board_compute` (and, under any iteration schedule,
`board_compute_openmp`) returns, the temp buffer is cell-for-cell
equal to the board buffer: both hold the new generation. -/
theorem C9_buffers_agree (board temp : Grid) (h w : Nat)
    (hh : h < 30) (hw : w < 40) :
    (board_compute board temp).1 h w = (board_compute board temp).2 h w
    ∧ (∀ rowSched colSched, rowSched.Perm (List.range 30) →
        (∀ i, (colSched i).Perm (List.range 40)) →
        (board_compute_openmp rowSched colSched board temp).1 h w
          = (board_compute_openmp rowSched colSched board temp).2 h w) := by
  constructor
  · rw [board_compute_fst, board_compute_snd]
    simp [hh, hw]
  · intro rowSched colSched hr hc
    rw [board_compute_openmp_fst rowSched colSched board temp
        (fun i => hr.mem_iff) (fun i j => (hc i).mem_iff),
      board_compute_openmp_snd rowSched colSched board temp
        (fun i => hr.mem_iff)]
    simp [hh, hw]

/-- Witness for C9 at the all-dead state and cell (2, 3). -/
theorem C9_buffers_agree_witness :
    (board_compute (fun _ _ => 0) (fun _ _ => 0)).1 2 3
      = (board_compute (fun _ _ => 0) (fun _ _ => 0)).2 2 3 :=
  (C9_buffers_agree (fun _ _ => 0) (fun _ _ => 0) 2 3 (by decide) (by decide)).1

/-- C10: for every input state, even with arbitrary integer cell
values, after `board_compute` every in-grid cell of both the board and
the temp buffer holds 0 or 1: one generation advance re-establishes
the binary-cell invariant. -/
theorem C10_binary_restored (board temp : Grid) (h w : Nat)
    (hh : h < 30) (hw : w < 40) :
    ((board_compute board temp).1 h w = 0 ∨ (board_compute board temp).1 h w = 1)
    ∧ ((board_compute board temp).2 h w = 0
        ∨ (board_compute board temp).2 h w = 1) := by
  rw [board_compute_fst, board_compute_snd]
  refine ⟨?_, ?_⟩ <;>
    simp only [hh, hw, and_self, if_true, ite_true, cellNext] <;>
    exact transition_binary _ _

/-- Witness for C10 at a state holding the non-binary value 42
everywhere, cell (0, 0). -/
theorem C10_binary_restored_witness :
    (board_compute (fun _ _ => 42) (fun _ _ => 42)).1 0 0 = 0
    ∨ (board_compute (fun _ _ => 42) (fun _ _ => 42)).1 0 0 = 1 :=
  (C10_binary_restored (fun _ _ => 42) (fun _ _ => 42) 0 0
    (by decide) (by decide)).1

end GameOfLife
